import Mathlib

/-!
Verification development for the yblp log-processing tool (src/lib.rs, src/main.rs).

The Rust source is shallowly embedded: each regex of the source is translated into a
deterministic maximal-munch matcher over `List Char`.  Every character class used by the
source's patterns is disjoint from the class of the construct that follows it (digits vs.
whitespace vs. punctuation), and all counted repetitions are of fixed width, so greedy
matching without backtracking recognises exactly the same strings as the backtracking
regex engine; this is noted again at each matcher.  Unicode-aware classes (`\s`, `\w`,
`str::trim`) are modelled by their ASCII parts, which covers every string the theorems
touch.  Calls of the panicking chrono constructors (`NaiveDate::from_ymd`,
`and_hms`, `and_hms_micro`) and overflowing `FromStr` conversions inside
`parse_capture` are modelled as an explicit `fault` outcome.
-/

namespace Yblp

abbrev Str := List Char

/-- ASCII decimal digit, the `\d` / `[0-9]` class of the source's regexes. -/
def isDigitCh (c : Char) : Bool := decide (48 ≤ c.toNat) && decide (c.toNat ≤ 57)

/-- ASCII part of the regex `\s` class (space, tab, LF, VT, FF, CR). -/
def isWsCh (c : Char) : Bool :=
  decide (c.toNat = 32) || (decide (9 ≤ c.toNat) && decide (c.toNat ≤ 13))

/-- The `[0-9a-zA-Z_-]` class used for the `file.ext` field of the line grammar. -/
def isFileNameCh (c : Char) : Bool :=
  isDigitCh c || (decide (65 ≤ c.toNat) && decide (c.toNat ≤ 90))
    || (decide (97 ≤ c.toNat) && decide (c.toNat ≤ 122))
    || decide (c = '_') || decide (c = '-')

/-- The `[0-9a-f]` class of the tablet-id pattern. -/
def isLowerHexCh (c : Char) : Bool :=
  isDigitCh c || (decide (97 ≤ c.toNat) && decide (c.toNat ≤ 102))

/-- ASCII part of the regex word class `\w`, used for the `\b` boundary check. -/
def isWordCh (c : Char) : Bool :=
  isDigitCh c || (decide (65 ≤ c.toNat) && decide (c.toNat ≤ 90))
    || (decide (97 ≤ c.toNat) && decide (c.toNat ≤ 122)) || decide (c = '_')

def digitVal (c : Char) : Nat := c.toNat - 48

/-- Value of a digit string, as `str::parse` computes it (no sign, no leading ws in
the captured groups). -/
def digitsToNat (l : Str) : Nat := l.foldl (fun a c => 10 * a + digitVal c) 0

-- ------------------------------------------------------------------------------------
-- Timestamps (chrono `NaiveDateTime`, microsecond precision)
-- ------------------------------------------------------------------------------------

structure Timestamp where
  year : Int
  month : Nat
  day : Nat
  hour : Nat
  minute : Nat
  second : Nat
  micro : Nat
deriving DecidableEq

/-- Proleptic-Gregorian leap-year rule used by chrono. -/
def isLeapYear (y : Int) : Bool :=
  decide (y % 4 = 0) && (decide (y % 100 ≠ 0) || decide (y % 400 = 0))

def daysInMonth (y : Int) (m : Nat) : Nat :=
  if m = 2 then (if isLeapYear y then 29 else 28)
  else if m = 4 ∨ m = 6 ∨ m = 9 ∨ m = 11 then 30
  else 31

/-- Validity condition of chrono `NaiveDate::from_ymd`: month and day in range and the
year inside chrono's representable range (±262144, the i32 >> 13 internal bound). -/
def validDate (y : Int) (m d : Nat) : Bool :=
  decide (-262144 ≤ y) && decide (y ≤ 262143) && decide (1 ≤ m) && decide (m ≤ 12)
    && decide (1 ≤ d) && decide (d ≤ daysInMonth y m)

/-- Validity condition of chrono `and_hms_micro` (micro above 10^6 encodes leap
seconds, hence the 1999999 bound). -/
def validTime (h mi s us : Nat) : Bool :=
  decide (h ≤ 23) && decide (mi ≤ 59) && decide (s ≤ 59) && decide (us ≤ 1999999)

/-- Model of `NaiveDate::from_ymd(y, m, d).and_hms_micro(h, mi, s, us)`; `none` models the
panic these chrono constructors raise on out-of-range components. -/
def mkTimestamp (y : Int) (m d h mi s us : Nat) : Option Timestamp :=
  if validDate y m d && validTime h mi s us then some ⟨y, m, d, h, mi, s, us⟩ else none

/-- Injective monotone key: on chrono-valid component ranges its order coincides with
the chronological (lexicographic) order chrono's `Ord`/`partial_cmp` implements. -/
def Timestamp.key (t : Timestamp) : Int :=
  (((((t.year * 16 + t.month) * 32 + t.day) * 24 + t.hour) * 60 + t.minute) * 60
    + t.second) * 2000000 + t.micro

-- ------------------------------------------------------------------------------------
-- Generic matching primitives
-- ------------------------------------------------------------------------------------

/-- Consume an expected literal character. -/
def expectCh (c : Char) : Str → Option Str
  | d :: rest => if d = c then some rest else none
  | [] => none

/-- Consume an expected literal string. -/
def expectLit : Str → Str → Option Str
  | [], t => some t
  | _ :: _, [] => none
  | p :: ps, c :: cs => if c = p then expectLit ps cs else none

/-- Greedy `p+`: a maximal nonempty run of characters satisfying `p`. -/
def munch1 (p : Char → Bool) (l : Str) : Option (Str × Str) :=
  match l.takeWhile p with
  | [] => none
  | c :: cs => some (c :: cs, l.dropWhile p)

/-- Exactly `n` characters satisfying `p` (a `p{n}` counted repetition). -/
def takeRunExact (p : Char → Bool) : Nat → Str → Option (Str × Str)
  | 0, l => some ([], l)
  | n + 1, c :: cs =>
      if p c then (takeRunExact p n cs).map (fun q => (c :: q.1, q.2)) else none
  | _ + 1, [] => none

/-- Fixed-width `\d{2}`. -/
def take2Digits (l : Str) : Option (Str × Str) := takeRunExact isDigitCh 2 l

/-- Does `pat` occur at the start of the text? -/
def startsWithL : Str → Str → Bool
  | [], _ => true
  | _ :: _, [] => false
  | p :: ps, c :: cs => decide (c = p) && startsWithL ps cs

/-- Rust `str::contains` with a literal substring pattern. -/
def containsSub (pat : Str) : Str → Bool
  | [] => startsWithL pat []
  | c :: cs => startsWithL pat (c :: cs) || containsSub pat cs

-- ------------------------------------------------------------------------------------
-- The line grammar `yb_log_line_re` (src/lib.rs lines 78-102)
-- ------------------------------------------------------------------------------------

/-- The eleven capture groups of `yb_log_line_re`, still as raw character data. -/
structure LineCaptures where
  log_level : Char
  month : Str
  day : Str
  hour : Str
  minute : Str
  second : Str
  micro : Str
  thread_id : Str
  file_name : Str
  line_number : Str
  message : Str
deriving DecidableEq

/-- Severity class `([IWEF])`. -/
def takeLevelCh : Str → Option (Char × Str)
  | c :: rest =>
      if c = 'I' || c = 'W' || c = 'E' || c = 'F' then some (c, rest) else none
  | [] => none

/-- Matcher for
`^([IWEF])(\d{2})(\d{2})\s+(\d{2}):(\d{2}):(\d{2})[.]([0-9]{6})\s+([0-9]+)\s+([0-9a-zA-Z_-]+[.][0-9a-zA-Z_-]+):(\d+)\] (.*)`.
Every `+` run here is followed by a character outside its class (digits / whitespace /
name characters vs. `:`, `.`, `]`), and all counted repetitions have fixed width, so
greedy maximal munch is equivalent to the regex engine's backtracking search; the
pattern is anchored at the start and `(.*)` takes the rest of the line. -/
def matchYbLogLine (l : Str) : Option LineCaptures :=
  match takeLevelCh l with
  | none => none
  | some (lvl, l) =>
  match take2Digits l with
  | none => none
  | some (mo, l) =>
  match take2Digits l with
  | none => none
  | some (da, l) =>
  match munch1 isWsCh l with
  | none => none
  | some (_, l) =>
  match take2Digits l with
  | none => none
  | some (ho, l) =>
  match expectCh ':' l with
  | none => none
  | some l =>
  match take2Digits l with
  | none => none
  | some (mi, l) =>
  match expectCh ':' l with
  | none => none
  | some l =>
  match take2Digits l with
  | none => none
  | some (se, l) =>
  match expectCh '.' l with
  | none => none
  | some l =>
  match takeRunExact isDigitCh 6 l with
  | none => none
  | some (us, l) =>
  match munch1 isWsCh l with
  | none => none
  | some (_, l) =>
  match munch1 isDigitCh l with
  | none => none
  | some (tid, l) =>
  match munch1 isWsCh l with
  | none => none
  | some (_, l) =>
  match munch1 isFileNameCh l with
  | none => none
  | some (fn1, l) =>
  match expectCh '.' l with
  | none => none
  | some l =>
  match munch1 isFileNameCh l with
  | none => none
  | some (fn2, l) =>
  match expectCh ':' l with
  | none => none
  | some l =>
  match munch1 isDigitCh l with
  | none => none
  | some (ln, l) =>
  match expectCh ']' l with
  | none => none
  | some l =>
  match expectCh ' ' l with
  | none => none
  | some l =>
  some ⟨lvl, mo, da, ho, mi, se, us, tid, fn1 ++ '.' :: fn2, ln, l⟩

-- ------------------------------------------------------------------------------------
-- Tablet id extraction: `tablet_id_re` = `T ([0-9a-f]{32})\b` (unanchored search)
-- ------------------------------------------------------------------------------------

/-- Try the tablet pattern at one position: literal `T `, exactly 32 lowercase hex
characters, then a word boundary (end of line or a non-word character). -/
def matchTabletAt (l : Str) : Option Str :=
  match expectCh 'T' l with
  | none => none
  | some l =>
  match expectCh ' ' l with
  | none => none
  | some l =>
  match takeRunExact isLowerHexCh 32 l with
  | none => none
  | some (hex, rest) =>
  match rest with
  | [] => some hex
  | c :: _ => if isWordCh c then none else some hex

/-- Leftmost match of `tablet_id_re` against the whole line, as
`YBLogLine::parse_tablet_id` does (the `Uuid::from_str` conversion of a 32-hex-digit
simple-format string always succeeds, so the identifier is kept as its hex text). -/
def parse_tablet_id : Str → Option Str
  | [] => none
  | c :: cs =>
      match matchTabletAt (c :: cs) with
      | some h => some h
      | none => parse_tablet_id cs

-- ------------------------------------------------------------------------------------
-- YBLogLine::parse (src/main.rs lines 118-157)
-- ------------------------------------------------------------------------------------

structure YBLogLine where
  log_level : Char
  timestamp : Timestamp
  thread_id : Int
  file_name : Str
  line_number : Int
  tablet_id : Option Str
  message : Str
deriving DecidableEq

/-- Outcome of running `YBLogLine::parse` on one line.  `fault` models a panic of the
Rust process: `parse_capture` panicking on an overflowing `i64`/`i32` conversion, or
`NaiveDate::from_ymd` / `and_hms_micro` panicking on an invalid calendar date. -/
inductive ParseOutcome where
  | noMatch
  | fault
  | ok (line : YBLogLine)
deriving DecidableEq

/-- Model of `YBLogLine::parse(line, context, year)`. -/
def YBLogLine.parse (l : Str) (year : Int) : ParseOutcome :=
  match matchYbLogLine l with
  | none => .noMatch
  | some caps =>
    if 9223372036854775807 < digitsToNat caps.thread_id
        ∨ 2147483647 < digitsToNat caps.line_number then .fault
    else
      match mkTimestamp year (digitsToNat caps.month) (digitsToNat caps.day)
          (digitsToNat caps.hour) (digitsToNat caps.minute) (digitsToNat caps.second)
          (digitsToNat caps.micro) with
      | none => .fault
      | some ts =>
          .ok ⟨caps.log_level, ts, (digitsToNat caps.thread_id : Int), caps.file_name,
            (digitsToNat caps.line_number : Int), parse_tablet_id l, caps.message⟩

-- ------------------------------------------------------------------------------------
-- Preamble patterns (src/lib.rs lines 116-119)
-- ------------------------------------------------------------------------------------

/-- Raw captures of `log_file_created_at_re`. -/
structure CreatedAtCaps where
  year : Str
  month : Str
  day : Str
  hour : Str
  minute : Str
  second : Str
deriving DecidableEq

/-- Matcher for `^Log file created at: (\d+{4})/(\d{2})/(\d{2})\s+(\d{2}):(\d{2}):(\d{2})$`.
In the regex crate `\d+{4}` is the repetition `(?:\d+){4}`; followed by the literal `/`
it can only match the entire maximal digit run before the slash, and it requires that
run to have at least four digits.  The pattern is anchored at both ends. -/
def matchCreatedAt (l : Str) : Option CreatedAtCaps :=
  match expectLit "Log file created at: ".data l with
  | none => none
  | some l =>
  match munch1 isDigitCh l with
  | none => none
  | some (yr, l) =>
  if yr.length < 4 then none else
  match expectCh '/' l with
  | none => none
  | some l =>
  match take2Digits l with
  | none => none
  | some (mo, l) =>
  match expectCh '/' l with
  | none => none
  | some l =>
  match take2Digits l with
  | none => none
  | some (da, l) =>
  match munch1 isWsCh l with
  | none => none
  | some (_, l) =>
  match take2Digits l with
  | none => none
  | some (ho, l) =>
  match expectCh ':' l with
  | none => none
  | some l =>
  match take2Digits l with
  | none => none
  | some (mi, l) =>
  match expectCh ':' l with
  | none => none
  | some l =>
  match take2Digits l with
  | none => none
  | some (se, l) =>
  match l with
  | [] => some ⟨yr, mo, da, ho, mi, se⟩
  | _ :: _ => none

/-- The `NaiveDate::from_ymd(..).and_hms(..)` call of `YBLogReader::load` on the
created-at captures (src/main.rs lines 231-239); `none` models its panic on invalid
components.  A year too large for `parse_capture::<i32>` is also above chrono's year
bound, so the overflow panic is covered by the same `none`. -/
def mkCreatedAtTs (c : CreatedAtCaps) : Option Timestamp :=
  mkTimestamp (digitsToNat c.year) (digitsToNat c.month) (digitsToNat c.day)
    (digitsToNat c.hour) (digitsToNat c.minute) (digitsToNat c.second) 0

/-- Matcher for `running_on_machine_re` = `^Running on machine: (.*)$`. -/
def matchRunningOn (l : Str) : Option Str := expectLit "Running on machine: ".data l

-- ------------------------------------------------------------------------------------
-- parse_filter_timestamp (src/lib.rs lines 17-44)
-- ------------------------------------------------------------------------------------

/-- ASCII model of Rust `str::trim`. -/
def trimChars (l : Str) : Str :=
  (((l.dropWhile isWsCh).reverse).dropWhile isWsCh).reverse

/-- Matcher for `^(\d{4})-(\d{2})-(\d{2})$`. -/
def matchYmd (l : Str) : Option (Nat × Nat × Nat) :=
  match takeRunExact isDigitCh 4 l with
  | none => none
  | some (y, l) =>
  match expectCh '-' l with
  | none => none
  | some l =>
  match take2Digits l with
  | none => none
  | some (mo, l) =>
  match expectCh '-' l with
  | none => none
  | some l =>
  match take2Digits l with
  | none => none
  | some (da, l) =>
  match l with
  | [] => some (digitsToNat y, digitsToNat mo, digitsToNat da)
  | _ :: _ => none

/-- The `[ tT]` class of the second filter-timestamp pattern. -/
def isSepCh (c : Char) : Bool := decide (c = ' ') || decide (c = 't') || decide (c = 'T')

/-- Matcher for `^(\d{4})-(\d{2})-(\d{2})[ tT]*(\d{2}):(\d{2}):(\d{2})$`.  The `[ tT]*`
run is greedy and its class is disjoint from digits, so maximal munch is exact. -/
def matchYmdHms (l : Str) : Option (Nat × Nat × Nat × Nat × Nat × Nat) :=
  match takeRunExact isDigitCh 4 l with
  | none => none
  | some (y, l) =>
  match expectCh '-' l with
  | none => none
  | some l =>
  match take2Digits l with
  | none => none
  | some (mo, l) =>
  match expectCh '-' l with
  | none => none
  | some l =>
  match take2Digits l with
  | none => none
  | some (da, l) =>
  match take2Digits (l.dropWhile isSepCh) with
  | none => none
  | some (ho, l) =>
  match expectCh ':' l with
  | none => none
  | some l =>
  match take2Digits l with
  | none => none
  | some (mi, l) =>
  match expectCh ':' l with
  | none => none
  | some l =>
  match take2Digits l with
  | none => none
  | some (se, l) =>
  match l with
  | [] => some (digitsToNat y, digitsToNat mo, digitsToNat da,
      digitsToNat ho, digitsToNat mi, digitsToNat se)
  | _ :: _ => none

/-- Outcome of `parse_filter_timestamp`: `Ok`, `Err`, or a panic of the chrono
constructors on out-of-range components (modelled as `fault`). -/
inductive FtOutcome where
  | ok (t : Timestamp)
  | err
  | fault
deriving DecidableEq

/-- Model of `parse_filter_timestamp` (src/lib.rs lines 17-44): trim, try the date-only
pattern with `and_hms(0, 0, 0)`, then the date-time pattern. -/
def parse_filter_timestamp (l : Str) : FtOutcome :=
  let s := trimChars l
  match matchYmd s with
  | some (y, m, d) =>
    match mkTimestamp (y : Int) m d 0 0 0 0 with
    | some ts => .ok ts
    | none => .fault
  | none =>
  match matchYmdHms s with
  | some (y, m, d, h, mi, se) =>
    match mkTimestamp (y : Int) m d h mi se 0 with
    | some ts => .ok ts
    | none => .fault
  | none => .err

/-- Modelled from the spec: "optional lowest/highest timestamp (formats:
`YYYY-MM-DD`, or `YYYY-MM-DD[ T]HH:MM:SS`)" — exactly ten characters
`YYYY-MM-DD`, or that followed by one separator character, a space or a capital `T`,
and `HH:MM:SS`; the string denotes the corresponding date-time. -/
def specFilterFormat (l : Str) : Option Timestamp :=
  match l with
  | [y1, y2, y3, y4, '-', m1, m2, '-', d1, d2] =>
    if isDigitCh y1 && isDigitCh y2 && isDigitCh y3 && isDigitCh y4 && isDigitCh m1
        && isDigitCh m2 && isDigitCh d1 && isDigitCh d2 then
      mkTimestamp (digitsToNat [y1, y2, y3, y4] : Int) (digitsToNat [m1, m2])
        (digitsToNat [d1, d2]) 0 0 0 0
    else none
  | [y1, y2, y3, y4, '-', m1, m2, '-', d1, d2, sep, h1, h2, ':', n1, n2, ':', s1, s2] =>
    if (decide (sep = ' ') || decide (sep = 'T')) && isDigitCh y1 && isDigitCh y2
        && isDigitCh y3 && isDigitCh y4 && isDigitCh m1 && isDigitCh m2 && isDigitCh d1
        && isDigitCh d2 && isDigitCh h1 && isDigitCh h2 && isDigitCh n1 && isDigitCh n2
        && isDigitCh s1 && isDigitCh s2 then
      mkTimestamp (digitsToNat [y1, y2, y3, y4] : Int) (digitsToNat [m1, m2])
        (digitsToNat [d1, d2]) (digitsToNat [h1, h2]) (digitsToNat [n1, n2])
        (digitsToNat [s1, s2]) 0
    else none
  | _ => none

-- ------------------------------------------------------------------------------------
-- ArgInfo and the per-file scan YBLogReader::load (src/main.rs lines 216-314)
-- ------------------------------------------------------------------------------------

/-- The fields of `ArgInfo` that `YBLogReader::load` consults.  `default_year` is a
required argument, so it is carried directly (the code's
`preamble.created_at.map(..).or(default_year).unwrap()` cannot see `None` twice). -/
structure ArgInfo where
  lowest_timestamp : Option Timestamp
  highest_timestamp : Option Timestamp
  default_year : Int
  line_contains : Option Str
deriving DecidableEq

/-- The two fields of `YBLogFilePreamble` that `load` ever writes; the fingerprint
fields of the Rust struct are never assigned by any code under src/. -/
structure YBLogFilePreamble where
  created_at : Option Timestamp
  running_on_machine : Option Str
deriving DecidableEq

structure LoadState where
  line_index : Nat
  preamble : YBLogFilePreamble
  successfully_parsed : Nat
  unsuccessfully_parsed : Nat
  skipped : Nat
  out : List YBLogLine
deriving DecidableEq

/-- What one finished scan leaves behind: the summary counters it prints, the preamble
it accumulated, and the records it pushed to the shared collector, in push order. -/
structure LoadResult where
  successfully_parsed : Nat
  unsuccessfully_parsed : Nat
  skipped : Nat
  preamble : YBLogFilePreamble
  out : List YBLogLine
deriving DecidableEq

/-- Here `fault` models a panic escaping `load` (a `parse_capture`/chrono panic). -/
inductive LoadOutcome where
  | fault
  | done (r : LoadResult)
deriving DecidableEq

/-- The `running_on_machine_re` block of the preamble window. -/
def applyRunningOn (pre : YBLogFilePreamble) (line : Str) : YBLogFilePreamble :=
  match matchRunningOn line with
  | some host => { pre with running_on_machine := some host }
  | none => pre

/-- The preamble-window block of `load` (src/main.rs lines 228-258): try the
created-at pattern (possibly breaking out of the scan when the creation date exceeds
the upper filter bound), then the running-on-machine pattern.  `none` models the
chrono panic on an invalid created-at date; the `Bool` is the `break` flag. -/
def applyPreamble (hi : Option Timestamp) (pre : YBLogFilePreamble) (line : Str) :
    Option (YBLogFilePreamble × Bool) :=
  match matchCreatedAt line with
  | none => some (applyRunningOn pre line, false)
  | some caps =>
    match mkCreatedAtTs caps with
    | none => none
    | some ts =>
      let pre2 := { pre with created_at := some ts }
      match hi with
      | some h =>
          if h.key < ts.key then some (pre2, true)
          else some (applyRunningOn pre2 line, false)
      | none => some (applyRunningOn pre2 line, false)

/-- The line-contains pre-filter of the loop body (src/main.rs lines 261-266). -/
def shouldSkipSub (cfg : ArgInfo) (line : Str) : Bool :=
  match cfg.line_contains with
  | some sub => !(containsSub sub line)
  | none => false

/-- Model of `self.preamble.created_at.map(|d| d.year()).or(..default_year)
.unwrap()` (src/main.rs lines 269-270). -/
def resolvedYear (cfg : ArgInfo) (pre : YBLogFilePreamble) : Int :=
  match pre.created_at with
  | some d => d.year
  | none => cfg.default_year

/-- The two bound checks that set `should_skip` on a parsed line
(src/main.rs lines 277-286). -/
def outOfBounds (cfg : ArgInfo) (t : Timestamp) : Bool :=
  (match cfg.highest_timestamp with
   | some h => decide (h.key < t.key)
   | none => false)
  || (match cfg.lowest_timestamp with
      | some lo => decide (t.key < lo.key)
      | none => false)

/-- The body of the scan loop after the preamble window block (src/main.rs lines
260-304): substring filter, grammar parse with the year resolved from the preamble or
the default, bound checks, counter updates and the push to the collector.  `none`
models a panic inside `YBLogLine::parse`. -/
def bodyStep (cfg : ArgInfo) (st : LoadState) (line : Str) : Option LoadState :=
  if shouldSkipSub cfg line then
    some { st with skipped := st.skipped + 1, line_index := st.line_index + 1 }
  else
    match YBLogLine.parse line (resolvedYear cfg st.preamble) with
    | .fault => none
    | .noMatch =>
        some { st with unsuccessfully_parsed := st.unsuccessfully_parsed + 1,
                       line_index := st.line_index + 1 }
    | .ok rec =>
        if outOfBounds cfg rec.timestamp then
          some { st with successfully_parsed := st.successfully_parsed + 1,
                         skipped := st.skipped + 1, line_index := st.line_index + 1 }
        else
          some { st with successfully_parsed := st.successfully_parsed + 1,
                         out := st.out ++ [rec], line_index := st.line_index + 1 }

def mkLoadResult (st : LoadState) : LoadResult :=
  ⟨st.successfully_parsed, st.unsuccessfully_parsed, st.skipped, st.preamble, st.out⟩

/-- The scan loop of `YBLogReader::load` from a given state. -/
def loadFrom (cfg : ArgInfo) : LoadState → List Str → LoadOutcome
  | st, [] => .done (mkLoadResult st)
  | st, line :: rest =>
    if st.line_index ≤ 10 then
      match applyPreamble cfg.highest_timestamp st.preamble line with
      | none => .fault
      | some (pre, true) => .done (mkLoadResult { st with preamble := pre })
      | some (pre, false) =>
        match bodyStep cfg { st with preamble := pre } line with
        | none => .fault
        | some st2 => loadFrom cfg st2 rest
    else
      match bodyStep cfg st line with
      | none => .fault
      | some st2 => loadFrom cfg st2 rest

/-- Model of `YBLogReader::load` on the whole sequence of lines of one file
(`line_index` starts at 1, `PREAMBLE_NUM_LINES` is 10). -/
def load (cfg : ArgInfo) (lines : List Str) : LoadOutcome :=
  loadFrom cfg ⟨1, ⟨none, none⟩, 0, 0, 0, []⟩ lines

-- ------------------------------------------------------------------------------------
-- main (src/main.rs lines 469-555): reader construction and finalization
-- ------------------------------------------------------------------------------------

/-- The reader-construction loop of `main` (lines 533-536): every input file is opened
with `YBLogReader::new(..).unwrap()` before any scan starts, so a single failed open
(`none` input) panics the whole process. -/
def openAll {α : Type} : List (Option α) → Option (List α)
  | [] => some []
  | none :: _ => none
  | some x :: fs => (openAll fs).map (fun l => x :: l)

/-- The whole run over a list of input files, each given as `some` line sequence or
`none` for a file that cannot be opened.  `none` overall models the process panicking
in `main` before any scan; otherwise every file is scanned and its outcome reported. -/
def runMain (cfg : ArgInfo) (files : List (Option (List Str))) :
    Option (List LoadOutcome) :=
  match openAll files with
  | none => none
  | some fs => some (fs.map (load cfg))

/-- Comparator of the final sort in `main` (line 550):
`a.timestamp.partial_cmp(&b.timestamp).unwrap()`, chrono's chronological order. -/
def recLE (a b : YBLogLine) : Prop := a.timestamp.key ≤ b.timestamp.key

instance : DecidableRel recLE := fun a b =>
  inferInstanceAs (Decidable (a.timestamp.key ≤ b.timestamp.key))

instance : IsTotal YBLogLine recLE :=
  ⟨fun a b => Int.le_total a.timestamp.key b.timestamp.key⟩

instance : IsTrans YBLogLine recLE := ⟨fun _ _ _ hab hbc => le_trans hab hbc⟩

/-- Model of `lines.sort_by(partial_cmp(..).unwrap())` in `main`
(line 550).  Rust's `sort_by` is a stable sort; a stable sort by a total preorder is
unique as a function, so insertion sort is its faithful embedding. -/
def finalizeOutput (lines : List YBLogLine) : List YBLogLine :=
  List.insertionSort recLE lines

-- ------------------------------------------------------------------------------------
-- Spec-side definitions used to compare code behaviour against the spec's wording
-- ------------------------------------------------------------------------------------

/-- Modelled from the spec: "no substring filter OR line contains it". -/
def specSubstrOk (cfg : ArgInfo) (line : Str) : Bool :=
  match cfg.line_contains with
  | none => true
  | some sub => containsSub sub line

/-- Modelled from the spec: "no lower bound OR timestamp ≥ lower". -/
def specLowOk (cfg : ArgInfo) (t : Timestamp) : Bool :=
  match cfg.lowest_timestamp with
  | none => true
  | some lo => decide (lo.key ≤ t.key)

/-- Modelled from the spec: "no upper bound OR timestamp ≤ upper". -/
def specHighOk (cfg : ArgInfo) (t : Timestamp) : Bool :=
  match cfg.highest_timestamp with
  | none => true
  | some hi => decide (t.key ≤ hi.key)

/-- Modelled from the spec: "a line is emitted iff it matches the grammar AND (no
substring filter OR line contains it) AND (no lower bound OR timestamp ≥ lower) AND
(no upper bound OR timestamp ≤ upper)", with the timestamp resolved using `year`. -/
def specEmitRecord (cfg : ArgInfo) (year : Int) (line : Str) : Option YBLogLine :=
  match YBLogLine.parse line year with
  | .ok rec =>
      if specSubstrOk cfg line && specLowOk cfg rec.timestamp
          && specHighOk cfg rec.timestamp then some rec
      else none
  | _ => none

/-- Preamble metadata extraction on its own: exactly the preamble-window block of
`load`, which consults only the upper filter bound and never the substring filter.
Used to state that the preamble produced by a scan is independent of the
line-substring filter. -/
def extractPreambleFrom (hi : Option Timestamp) :
    Nat → YBLogFilePreamble → List Str → Option YBLogFilePreamble
  | _, pre, [] => some pre
  | idx, pre, line :: rest =>
    if idx ≤ 10 then
      match applyPreamble hi pre line with
      | none => none
      | some (pre2, true) => some pre2
      | some (pre2, false) => extractPreambleFrom hi (idx + 1) pre2 rest
    else some pre

def extractPreamble (hi : Option Timestamp) (lines : List Str) :
    Option YBLogFilePreamble :=
  extractPreambleFrom hi 1 ⟨none, none⟩ lines

-- ------------------------------------------------------------------------------------
-- Helper lemmas about the scan loop
-- ------------------------------------------------------------------------------------

lemma mkTimestamp_year {y : Int} {m d h mi s us : Nat} {ts : Timestamp}
    (hm : mkTimestamp y m d h mi s us = some ts) : ts.year = y := by
  unfold mkTimestamp at hm
  split at hm
  · cases hm; rfl
  · cases hm

lemma parse_ok_year {l : Str} {y : Int} {rec : YBLogLine}
    (h : YBLogLine.parse l y = .ok rec) : rec.timestamp.year = y := by
  unfold YBLogLine.parse at h
  split at h
  · cases h
  · split at h
    · cases h
    · split at h
      · cases h
      · cases h
        exact mkTimestamp_year (by assumption)

lemma specEmitRecord_year {cfg : ArgInfo} {y : Int} {line : Str} {rec : YBLogLine}
    (h : specEmitRecord cfg y line = some rec) : rec.timestamp.year = y := by
  unfold specEmitRecord at h
  split at h
  case _ rec2 heq =>
    split at h
    · cases h
      exact parse_ok_year heq
    · cases h
  case _ => cases h

lemma applyRunningOn_created_at (pre : YBLogFilePreamble) (line : Str) :
    (applyRunningOn pre line).created_at = pre.created_at := by
  unfold applyRunningOn
  cases matchRunningOn line <;> rfl

lemma applyPreamble_no_created {hi : Option Timestamp} {pre : YBLogFilePreamble}
    {line : Str} (h : matchCreatedAt line = none) :
    applyPreamble hi pre line = some (applyRunningOn pre line, false) := by
  unfold applyPreamble
  rw [h]

lemma resolvedYear_none {cfg : ArgInfo} {pre : YBLogFilePreamble}
    (h : pre.created_at = none) : resolvedYear cfg pre = cfg.default_year := by
  unfold resolvedYear
  rw [h]

lemma resolvedYear_some {cfg : ArgInfo} {pre : YBLogFilePreamble} {ts : Timestamp}
    (h : pre.created_at = some ts) : resolvedYear cfg pre = ts.year := by
  unfold resolvedYear
  rw [h]

lemma shouldSkipSub_eq (cfg : ArgInfo) (line : Str) :
    shouldSkipSub cfg line = !specSubstrOk cfg line := by
  unfold shouldSkipSub specSubstrOk
  cases cfg.line_contains <;> rfl

lemma decide_lt_eq_not_decide_le (a b : Int) : decide (a < b) = !decide (b ≤ a) := by
  by_cases h : a < b
  · simp [h, Int.not_le.mpr h]
  · simp [h, Int.not_lt.mp h]

lemma outOfBounds_eq (cfg : ArgInfo) (t : Timestamp) :
    outOfBounds cfg t = !(specLowOk cfg t && specHighOk cfg t) := by
  unfold outOfBounds specLowOk specHighOk
  cases cfg.highest_timestamp <;> cases cfg.lowest_timestamp <;>
    simp [decide_lt_eq_not_decide_le, Bool.or_comm]

lemma bodyStep_preamble {cfg : ArgInfo} {st : LoadState} {line : Str} {st2 : LoadState}
    (h : bodyStep cfg st line = some st2) : st2.preamble = st.preamble := by
  unfold bodyStep at h
  split at h
  · cases h; rfl
  · split at h
    · cases h
    · cases h; rfl
    · split at h <;> (cases h; rfl)

lemma bodyStep_line_index {cfg : ArgInfo} {st : LoadState} {line : Str}
    {st2 : LoadState} (h : bodyStep cfg st line = some st2) :
    st2.line_index = st.line_index + 1 := by
  unfold bodyStep at h
  split at h
  · cases h; rfl
  · split at h
    · cases h
    · cases h; rfl
    · split at h <;> (cases h; rfl)

lemma bodyStep_out_spec {cfg : ArgInfo} {st : LoadState} {line : Str} {st2 : LoadState}
    (h : bodyStep cfg st line = some st2) :
    st2.out = st.out ++ (specEmitRecord cfg (resolvedYear cfg st.preamble) line).toList
    := by
  unfold bodyStep at h
  by_cases hskip : shouldSkipSub cfg line
  · rw [if_pos hskip] at h
    cases h
    have hsub : specSubstrOk cfg line = false := by
      have he := shouldSkipSub_eq cfg line
      rw [hskip] at he
      cases hval : specSubstrOk cfg line
      · rfl
      · rw [hval] at he
        exact Bool.noConfusion he
    unfold specEmitRecord
    split <;> simp [hsub]
  · rw [if_neg hskip] at h
    have hsub : specSubstrOk cfg line = true := by
      have he := shouldSkipSub_eq cfg line
      cases hval : specSubstrOk cfg line
      · rw [hval] at he
        exact absurd he hskip
      · rfl
    split at h
    next heq => exact Option.noConfusion h
    next heq =>
      cases h
      simp [specEmitRecord, heq]
    next rec heq =>
      have hbb := outOfBounds_eq cfg rec.timestamp
      split at h
      next hb =>
        cases h
        rw [hb] at hbb
        have hlh : (specLowOk cfg rec.timestamp
            && specHighOk cfg rec.timestamp) = false := by
          cases hval : (specLowOk cfg rec.timestamp && specHighOk cfg rec.timestamp)
          · rfl
          · rw [hval] at hbb
            exact Bool.noConfusion hbb
        simp [specEmitRecord, heq, hsub, hlh]
      next hb =>
        cases h
        have hb2 : outOfBounds cfg rec.timestamp = false := by
          cases hval : outOfBounds cfg rec.timestamp
          · rfl
          · exact absurd hval hb
        rw [hb2] at hbb
        have hlh : (specLowOk cfg rec.timestamp
            && specHighOk cfg rec.timestamp) = true := by
          cases hval : (specLowOk cfg rec.timestamp && specHighOk cfg rec.timestamp)
          · rw [hval] at hbb
            exact Bool.noConfusion hbb
          · rfl
        simp [specEmitRecord, heq, hsub, hlh]

lemma withPreamble_out (st : LoadState) (p : YBLogFilePreamble) :
    ({st with preamble := p} : LoadState).out = st.out := rfl

lemma withPreamble_preamble (st : LoadState) (p : YBLogFilePreamble) :
    ({st with preamble := p} : LoadState).preamble = p := rfl

lemma withPreamble_line_index (st : LoadState) (p : YBLogFilePreamble) :
    ({st with preamble := p} : LoadState).line_index = st.line_index := rfl

lemma loadFrom_preamble_frozen (cfg : ArgInfo) :
    ∀ (lines : List Str) (st : LoadState) (r : LoadResult), 10 < st.line_index →
      loadFrom cfg st lines = .done r → r.preamble = st.preamble := by
  intro lines
  induction lines with
  | nil =>
    intro st r _ h
    simp only [loadFrom] at h
    cases h
    rfl
  | cons line rest ih =>
    intro st r hidx h
    simp only [loadFrom] at h
    rw [if_neg (by omega)] at h
    split at h
    next heq => exact LoadOutcome.noConfusion h
    next st2 heq =>
      have h1 := bodyStep_preamble heq
      have h2 := bodyStep_line_index heq
      rw [ih st2 r (by omega) h, h1]

lemma loadFrom_extract (cfg : ArgInfo) :
    ∀ (lines : List Str) (st : LoadState) (r : LoadResult),
      loadFrom cfg st lines = .done r →
      extractPreambleFrom cfg.highest_timestamp st.line_index st.preamble lines
        = some r.preamble := by
  intro lines
  induction lines with
  | nil =>
    intro st r h
    simp only [loadFrom] at h
    cases h
    rfl
  | cons line rest ih =>
    intro st r h
    simp only [loadFrom] at h
    simp only [extractPreambleFrom]
    by_cases hidx : st.line_index ≤ 10
    · rw [if_pos hidx] at h ⊢
      split at h
      next heq => exact LoadOutcome.noConfusion h
      next pre2 heq =>
        cases h
        rfl
      next pre2 heq =>
        split at h
        next heq2 => exact LoadOutcome.noConfusion h
        next st2 heq2 =>
          have h1 : st2.preamble = pre2 := bodyStep_preamble heq2
          have h2 := bodyStep_line_index heq2
          have h3 := ih st2 r h
          rw [h2, h1] at h3
          exact h3
    · rw [if_neg hidx] at h ⊢
      split at h
      next heq => exact LoadOutcome.noConfusion h
      next st2 heq =>
        have h1 := bodyStep_preamble heq
        have h2 := bodyStep_line_index heq
        have h3 := loadFrom_preamble_frozen cfg rest st2 r (by omega) h
        rw [h3, h1]

lemma loadFrom_out_created_none (cfg : ArgInfo) :
    ∀ (lines : List Str) (st : LoadState) (r : LoadResult),
      st.preamble.created_at = none →
      (∀ l ∈ lines, matchCreatedAt l = none) →
      loadFrom cfg st lines = .done r →
      r.out = st.out ++ lines.filterMap (specEmitRecord cfg cfg.default_year) := by
  intro lines
  induction lines with
  | nil =>
    intro st r _ _ h
    simp only [loadFrom] at h
    cases h
    simp [mkLoadResult]
  | cons line rest ih =>
    intro st r hpre hlines h
    simp only [loadFrom] at h
    have hline : matchCreatedAt line = none := hlines line (by simp)
    have hrest : ∀ l ∈ rest, matchCreatedAt l = none := fun l hl => hlines l (by simp [hl])
    by_cases hidx : st.line_index ≤ 10
    · rw [if_pos hidx] at h
      simp only [applyPreamble_no_created hline] at h
      split at h
      next heq => exact LoadOutcome.noConfusion h
      next st2 heq =>
        have hp := bodyStep_preamble heq
        rw [withPreamble_preamble] at hp
        have hout := bodyStep_out_spec heq
        rw [withPreamble_out, withPreamble_preamble] at hout
        have hpre1 : (applyRunningOn st.preamble line).created_at = none := by
          rw [applyRunningOn_created_at]
          exact hpre
        have hcreated : st2.preamble.created_at = none := by
          rw [hp]
          exact hpre1
        have h3 := ih st2 r hcreated hrest h
        have hyear : resolvedYear cfg (applyRunningOn st.preamble line)
            = cfg.default_year := resolvedYear_none hpre1
        rw [hyear] at hout
        rw [h3, hout]
        cases hspec : specEmitRecord cfg cfg.default_year line <;>
          simp [hspec, List.filterMap_cons]
    · rw [if_neg hidx] at h
      split at h
      next heq => exact LoadOutcome.noConfusion h
      next st2 heq =>
        have hp := bodyStep_preamble heq
        have hout := bodyStep_out_spec heq
        have hcreated : st2.preamble.created_at = none := by
          rw [hp]
          exact hpre
        have h3 := ih st2 r hcreated hrest h
        have hyear : resolvedYear cfg st.preamble = cfg.default_year :=
          resolvedYear_none hpre
        rw [hyear] at hout
        rw [h3, hout]
        cases hspec : specEmitRecord cfg cfg.default_year line <;>
          simp [hspec, List.filterMap_cons]

lemma loadFrom_year_fixed (cfg : ArgInfo) (ts : Timestamp) :
    ∀ (lines : List Str) (st : LoadState) (r : LoadResult),
      st.preamble.created_at = some ts →
      (∀ l ∈ lines, matchCreatedAt l = none) →
      (∀ rec ∈ st.out, rec.timestamp.year = ts.year) →
      loadFrom cfg st lines = .done r →
      ∀ rec ∈ r.out, rec.timestamp.year = ts.year := by
  intro lines
  induction lines with
  | nil =>
    intro st r _ _ hout h
    simp only [loadFrom] at h
    cases h
    exact hout
  | cons line rest ih =>
    intro st r hpre hlines hout h
    simp only [loadFrom] at h
    have hline : matchCreatedAt line = none := hlines line (by simp)
    have hrest : ∀ l ∈ rest, matchCreatedAt l = none := fun l hl => hlines l (by simp [hl])
    by_cases hidx : st.line_index ≤ 10
    · rw [if_pos hidx] at h
      simp only [applyPreamble_no_created hline] at h
      split at h
      next heq => exact LoadOutcome.noConfusion h
      next st2 heq =>
        have hp := bodyStep_preamble heq
        rw [withPreamble_preamble] at hp
        have hsp := bodyStep_out_spec heq
        rw [withPreamble_out, withPreamble_preamble] at hsp
        have hpre1 : (applyRunningOn st.preamble line).created_at = some ts := by
          rw [applyRunningOn_created_at]
          exact hpre
        have hyear : resolvedYear cfg (applyRunningOn st.preamble line) = ts.year :=
          resolvedYear_some hpre1
        rw [hyear] at hsp
        have hout2 : ∀ rec ∈ st2.out, rec.timestamp.year = ts.year := by
          intro rec hrec
          rw [hsp] at hrec
          rcases List.mem_append.mp hrec with hmem | hmem
          · exact hout rec hmem
          · cases hspec : specEmitRecord cfg ts.year line with
            | none => rw [hspec] at hmem; simp at hmem
            | some rec2 =>
                rw [hspec] at hmem
                simp at hmem
                subst hmem
                exact specEmitRecord_year hspec
        exact ih st2 r (by rw [hp]; exact hpre1) hrest hout2 h
    · rw [if_neg hidx] at h
      split at h
      next heq => exact LoadOutcome.noConfusion h
      next st2 heq =>
        have hp := bodyStep_preamble heq
        have hsp := bodyStep_out_spec heq
        have hyear : resolvedYear cfg st.preamble = ts.year := resolvedYear_some hpre
        rw [hyear] at hsp
        have hout2 : ∀ rec ∈ st2.out, rec.timestamp.year = ts.year := by
          intro rec hrec
          rw [hsp] at hrec
          rcases List.mem_append.mp hrec with hmem | hmem
          · exact hout rec hmem
          · cases hspec : specEmitRecord cfg ts.year line with
            | none => rw [hspec] at hmem; simp at hmem
            | some rec2 =>
                rw [hspec] at hmem
                simp at hmem
                subst hmem
                exact specEmitRecord_year hspec
        exact ih st2 r (by rw [hp]; exact hpre) hrest hout2 h

lemma filter_orderedInsert (t : Int) (a : YBLogLine) :
    ∀ l : List YBLogLine,
      (List.orderedInsert recLE a l).filter (fun x => decide (x.timestamp.key = t))
        = if a.timestamp.key = t
          then a :: l.filter (fun x => decide (x.timestamp.key = t))
          else l.filter (fun x => decide (x.timestamp.key = t)) := by
  intro l
  induction l with
  | nil =>
    by_cases ht : a.timestamp.key = t <;>
      simp [List.orderedInsert, List.filter_cons, ht]
  | cons b l ih =>
    simp only [List.orderedInsert]
    by_cases hab : recLE a b
    · rw [if_pos hab]
      by_cases ht : a.timestamp.key = t <;> simp [List.filter_cons, ht]
    · rw [if_neg hab]
      have hb : b.timestamp.key < a.timestamp.key := by
        unfold recLE at hab
        omega
      by_cases ht : a.timestamp.key = t
      · have hbt : ¬ b.timestamp.key = t := by omega
        simp [List.filter_cons, ih, ht, hbt]
      · simp [List.filter_cons, ih, ht]

lemma filter_insertionSort (t : Int) :
    ∀ l : List YBLogLine,
      (List.insertionSort recLE l).filter (fun x => decide (x.timestamp.key = t))
        = l.filter (fun x => decide (x.timestamp.key = t)) := by
  intro l
  induction l with
  | nil => rfl
  | cons a l ih =>
    simp only [List.insertionSort]
    rw [filter_orderedInsert]
    by_cases ht : a.timestamp.key = t <;> simp [List.filter_cons, ht, ih]

lemma openAll_eq_none {α : Type} :
    ∀ (files : List (Option α)), none ∈ files → openAll files = none := by
  intro files
  induction files with
  | nil =>
    intro h
    cases h
  | cons f fs ih =>
    intro h
    cases f with
    | none => rfl
    | some x =>
      have h2 : none ∈ fs := by
        rcases List.mem_cons.mp h with h1 | h1
        · exact Option.noConfusion h1
        · exact h1
      simp only [openAll]
      rw [ih h2]
      rfl

lemma isWsCh_of_digit {c : Char} (h : isDigitCh c = true) : isWsCh c = false := by
  simp only [isDigitCh, Bool.and_eq_true, decide_eq_true_eq] at h
  cases hval : isWsCh c
  · rfl
  · simp only [isWsCh, Bool.or_eq_true, Bool.and_eq_true, decide_eq_true_eq] at hval
    omega

lemma isSepCh_of_digit {c : Char} (h : isDigitCh c = true) : isSepCh c = false := by
  simp only [isDigitCh, Bool.and_eq_true, decide_eq_true_eq] at h
  cases hval : isSepCh c
  · rfl
  · simp only [isSepCh, Bool.or_eq_true, decide_eq_true_eq] at hval
    rcases hval with (h1 | h1) | h1 <;> subst h1 <;> exact absurd h (by decide)

lemma trimChars_of_ends {a b : Char} (ha : isWsCh a = false) (hb : isWsCh b = false)
    (mid : Str) : trimChars (a :: (mid ++ [b])) = a :: (mid ++ [b]) := by
  unfold trimChars
  have h1 : List.dropWhile isWsCh (a :: (mid ++ [b])) = a :: (mid ++ [b]) := by
    simp [List.dropWhile_cons, ha]
  rw [h1]
  have h2 : (a :: (mid ++ [b])).reverse = b :: (mid.reverse ++ [a]) := by
    simp
  rw [h2]
  have h3 : List.dropWhile isWsCh (b :: (mid.reverse ++ [a]))
      = b :: (mid.reverse ++ [a]) := by
    simp [List.dropWhile_cons, hb]
  rw [h3]
  simp

-- ------------------------------------------------------------------------------------
-- Claim C1 (ordering violations)
-- ------------------------------------------------------------------------------------

/-- C1 is refuted: in a two-line file whose second matching line has a resolved
timestamp strictly below the first accepted line's, the scan does not fail at all — it
completes normally and accepts and emits both lines (2 parsed, 0 unparsed, 0 skipped);
no ordering check exists in `load`. -/
theorem c1_counterexample :
    (⟨'I', ⟨2021, 4, 7, 9, 0, 0, 0⟩, 777, "client.cc".data, 7, none,
        "earlier".data⟩ : YBLogLine).timestamp.key
      < (⟨'I', ⟨2021, 4, 8, 10, 34, 43, 355123⟩, 12345, "server.cc".data, 42, none,
        "later".data⟩ : YBLogLine).timestamp.key
  ∧ load ⟨none, none, 2021, none⟩
      ["I0408 10:34:43.355123 12345 server.cc:42] later".data,
       "I0407 09:00:00.000000 777 client.cc:7] earlier".data]
      = .done ⟨2, 0, 0, ⟨none, none⟩,
          [⟨'I', ⟨2021, 4, 8, 10, 34, 43, 355123⟩, 12345, "server.cc".data, 42, none,
            "later".data⟩,
           ⟨'I', ⟨2021, 4, 7, 9, 0, 0, 0⟩, 777, "client.cc".data, 7, none,
            "earlier".data⟩]⟩ := by
  exact ⟨by decide, by decide⟩

/-- C1, amended: `load` performs no ordering check.  A line whose resolved timestamp
precedes that of a previously accepted line in the same file is accepted and emitted
like any other line, the scan reports success with both lines counted as parsed, and
the out-of-order pair is reordered only by the final global sort in `main`. -/
theorem c1_theorem :
    load ⟨none, none, 2021, none⟩
      ["I0408 10:34:43.355123 12345 server.cc:42] later".data,
       "I0407 09:00:00.000000 777 client.cc:7] earlier".data]
      = .done ⟨2, 0, 0, ⟨none, none⟩,
          [⟨'I', ⟨2021, 4, 8, 10, 34, 43, 355123⟩, 12345, "server.cc".data, 42, none,
            "later".data⟩,
           ⟨'I', ⟨2021, 4, 7, 9, 0, 0, 0⟩, 777, "client.cc".data, 7, none,
            "earlier".data⟩]⟩
  ∧ finalizeOutput
      [⟨'I', ⟨2021, 4, 8, 10, 34, 43, 355123⟩, 12345, "server.cc".data, 42, none,
        "later".data⟩,
       ⟨'I', ⟨2021, 4, 7, 9, 0, 0, 0⟩, 777, "client.cc".data, 7, none,
        "earlier".data⟩]
      = [⟨'I', ⟨2021, 4, 7, 9, 0, 0, 0⟩, 777, "client.cc".data, 7, none,
          "earlier".data⟩,
         ⟨'I', ⟨2021, 4, 8, 10, 34, 43, 355123⟩, 12345, "server.cc".data, 42, none,
          "later".data⟩] := by
  exact ⟨by decide, by decide⟩

-- ------------------------------------------------------------------------------------
-- Claim C2 (totality of line parsing)
-- ------------------------------------------------------------------------------------

/-- C2: the grammar regex matches `I0432 ...` (month 04, day 32), yet
`YBLogLine::parse` panics — `NaiveDate::from_ymd(2021, 4, 32)` is a program fault,
not a NoMatch — confirming the claim's requirement and exhibiting the code bug. -/
theorem c2_theorem :
    (matchYbLogLine "I0432 10:34:43.355123 12345 server.cc:42] boot".data).isSome
      = true
  ∧ YBLogLine.parse "I0432 10:34:43.355123 12345 server.cc:42] boot".data 2021
      = .fault := by
  exact ⟨by decide, by decide⟩

-- ------------------------------------------------------------------------------------
-- Claim C3 (fault isolation across files)
-- ------------------------------------------------------------------------------------

/-- C3 is refuted: with two input files of which the second cannot be opened, the
whole run aborts (`main` unwraps every `YBLogReader::new` before any scan), producing
no per-file outcome at all — even though the first file on its own scans fine. -/
theorem c3_counterexample :
    runMain ⟨none, none, 2021, none⟩
      [some ["I0408 10:34:43.355123 12345 server.cc:42] starting up".data], none]
      = none
  ∧ load ⟨none, none, 2021, none⟩
      ["I0408 10:34:43.355123 12345 server.cc:42] starting up".data]
      = .done ⟨1, 0, 0, ⟨none, none⟩,
          [⟨'I', ⟨2021, 4, 8, 10, 34, 43, 355123⟩, 12345, "server.cc".data, 42, none,
            "starting up".data⟩]⟩ := by
  exact ⟨by decide, by decide⟩

/-- C3, amended: a failure to open any input file panics `main` and aborts the entire
run before any file is scanned; there is no per-file Failed state and no per-file
summary is produced for any file. -/
theorem c3_theorem (cfg : ArgInfo) (files : List (Option (List Str)))
    (h : none ∈ files) : runMain cfg files = none := by
  unfold runMain
  rw [openAll_eq_none files h]

/-- Witness for the amended C3 at a concrete input. -/
theorem c3_witness :
    runMain ⟨none, none, 2021, none⟩ [some [], none] = none :=
  c3_theorem ⟨none, none, 2021, none⟩ [some [], none] (by decide)

-- ------------------------------------------------------------------------------------
-- Claim C4 (per-file year resolution)
-- ------------------------------------------------------------------------------------

/-- C4 is refuted: the year is recomputed on every line, so in a file whose created-at
preamble line (year 2021) is preceded by a body line, the earlier body line resolves
with the default year 1999 while the later one resolves with 2021 — the year changes
mid-file. -/
theorem c4_counterexample :
    load ⟨none, none, 1999, none⟩
      ["I0408 10:34:43.355123 12345 server.cc:42] a".data,
       "Log file created at: 2021/04/08 14:44:23".data,
       "I0408 10:34:43.355123 12345 server.cc:42] b".data]
      = .done ⟨2, 1, 0, ⟨some ⟨2021, 4, 8, 14, 44, 23, 0⟩, none⟩,
          [⟨'I', ⟨1999, 4, 8, 10, 34, 43, 355123⟩, 12345, "server.cc".data, 42, none,
            "a".data⟩,
           ⟨'I', ⟨2021, 4, 8, 10, 34, 43, 355123⟩, 12345, "server.cc".data, 42, none,
            "b".data⟩]⟩
  ∧ ((1999 : Int) ≠ 2021) := by
  exact ⟨by decide, by decide⟩

/-- C4, amended: each line resolves with the preamble year only if the created-at line
has already been parsed when that line is processed.  Consequently, when the created-at
line declaring timestamp `ts` is the first line of the file and no later line matches
the created-at pattern, every record accepted from that file resolves with year
`ts.year`, regardless of the configured default year. -/
theorem c4_theorem (cfg : ArgInfo) (l0 : Str) (rest : List Str)
    (caps : CreatedAtCaps) (ts : Timestamp) (r : LoadResult)
    (h0 : matchCreatedAt l0 = some caps)
    (hts : mkCreatedAtTs caps = some ts)
    (hrest : ∀ l ∈ rest, matchCreatedAt l = none)
    (hload : load cfg (l0 :: rest) = .done r) :
    ∀ rec ∈ r.out, rec.timestamp.year = ts.year := by
  unfold load at hload
  simp only [loadFrom] at hload
  rw [if_pos (by decide)] at hload
  split at hload
  next heq => exact LoadOutcome.noConfusion hload
  next pre2 heq =>
    cases hload
    intro rec hrec
    simp [mkLoadResult] at hrec
  next pre2 heq =>
    unfold applyPreamble at heq
    simp only [h0, hts] at heq
    have hpre2 : pre2.created_at = some ts := by
      cases hhi : cfg.highest_timestamp with
      | none =>
        simp only [hhi, Option.some.injEq, Prod.mk.injEq] at heq
        obtain ⟨h1, _⟩ := heq
        rw [← h1, applyRunningOn_created_at]
      | some hi =>
        simp only [hhi] at heq
        by_cases hk : hi.key < ts.key
        · rw [if_pos hk] at heq
          simp at heq
        · rw [if_neg hk] at heq
          simp only [Option.some.injEq, Prod.mk.injEq] at heq
          obtain ⟨h1, _⟩ := heq
          rw [← h1, applyRunningOn_created_at]
    split at hload
    next heq2 => exact LoadOutcome.noConfusion hload
    next st2 heq2 =>
      have hp : st2.preamble = pre2 := bodyStep_preamble heq2
      have hsp : st2.out
          = [] ++ (specEmitRecord cfg (resolvedYear cfg pre2) l0).toList :=
        bodyStep_out_spec heq2
      have hyear : resolvedYear cfg pre2 = ts.year := resolvedYear_some hpre2
      rw [hyear] at hsp
      have hout2 : ∀ rec ∈ st2.out, rec.timestamp.year = ts.year := by
        intro rec hrec
        rw [hsp] at hrec
        rcases List.mem_append.mp hrec with hmem | hmem
        · simp at hmem
        · cases hspec : specEmitRecord cfg ts.year l0 with
          | none => rw [hspec] at hmem; simp at hmem
          | some rec2 =>
              rw [hspec] at hmem
              simp at hmem
              subst hmem
              exact specEmitRecord_year hspec
      exact loadFrom_year_fixed cfg ts rest st2 r (by rw [hp]; exact hpre2) hrest
        hout2 hload

/-- Witness for the amended C4 at a concrete input. -/
theorem c4_witness :
    load ⟨none, none, 1999, none⟩
      ["Log file created at: 2021/04/08 14:44:23".data,
       "I0408 10:34:43.355123 12345 server.cc:42] b".data]
      = .done ⟨1, 1, 0, ⟨some ⟨2021, 4, 8, 14, 44, 23, 0⟩, none⟩,
          [⟨'I', ⟨2021, 4, 8, 10, 34, 43, 355123⟩, 12345, "server.cc".data, 42, none,
            "b".data⟩]⟩
  ∧ (⟨'I', ⟨2021, 4, 8, 10, 34, 43, 355123⟩, 12345, "server.cc".data, 42, none,
      "b".data⟩ : YBLogLine).timestamp.year
      = (⟨2021, 4, 8, 14, 44, 23, 0⟩ : Timestamp).year :=
  ⟨by decide,
   c4_theorem ⟨none, none, 1999, none⟩
     "Log file created at: 2021/04/08 14:44:23".data
     ["I0408 10:34:43.355123 12345 server.cc:42] b".data]
     ⟨"2021".data, "04".data, "08".data, "14".data, "44".data, "23".data⟩
     ⟨2021, 4, 8, 14, 44, 23, 0⟩
     ⟨1, 1, 0, ⟨some ⟨2021, 4, 8, 14, 44, 23, 0⟩, none⟩,
       [⟨'I', ⟨2021, 4, 8, 10, 34, 43, 355123⟩, 12345, "server.cc".data, 42, none,
         "b".data⟩]⟩
     (by decide) (by decide) (by decide) (by decide)
     ⟨'I', ⟨2021, 4, 8, 10, 34, 43, 355123⟩, 12345, "server.cc".data, 42, none,
       "b".data⟩ (by decide)⟩

-- ------------------------------------------------------------------------------------
-- Claim C5 (filter-timestamp formats)
-- ------------------------------------------------------------------------------------

/-- C5 is refuted: `2021-04-08t10:00:00` is in neither spec format (the separator may
only be a space or a capital T there), yet `parse_filter_timestamp` accepts it,
because the code's second pattern uses `[ tT]*` — any run, possibly empty, of space,
`t` or `T`. -/
theorem c5_counterexample :
    parse_filter_timestamp "2021-04-08t10:00:00".data = .ok ⟨2021, 4, 8, 10, 0, 0, 0⟩
  ∧ specFilterFormat "2021-04-08t10:00:00".data = none := by
  exact ⟨by decide, by decide⟩

/-- Modelled from the amended claim: the date-only shape — exactly ten characters,
four digits, `-`, two digits, `-`, two digits — and the values its digits denote. -/
def ymdShape : Str → Option (Nat × Nat × Nat)
  | [y1, y2, y3, y4, c1, m1, m2, c2, d1, d2] =>
      if decide (c1 = '-') && decide (c2 = '-') && isDigitCh y1 && isDigitCh y2
          && isDigitCh y3 && isDigitCh y4 && isDigitCh m1 && isDigitCh m2
          && isDigitCh d1 && isDigitCh d2 then
        some (digitsToNat [y1, y2, y3, y4], digitsToNat [m1, m2],
          digitsToNat [d1, d2])
      else none
  | _ => none

/-- Modelled from the amended claim: the time-of-day shape `HH:MM:SS` — exactly eight
characters — and the values its digits denote. -/
def hmsShape : Str → Option (Nat × Nat × Nat)
  | [h1, h2, c1, n1, n2, c2, s1, s2] =>
      if decide (c1 = ':') && decide (c2 = ':') && isDigitCh h1 && isDigitCh h2
          && isDigitCh n1 && isDigitCh n2 && isDigitCh s1 && isDigitCh s2 then
        some (digitsToNat [h1, h2], digitsToNat [n1, n2], digitsToNat [s1, s2])
      else none
  | _ => none

/-- Modelled from the amended claim: the date-time shape — the ten-character date
shape, then any run (possibly empty or repeated) of space, `t`, `T` characters, then
the eight-character time shape. -/
def ymdHmsShape (s : Str) : Option (Nat × Nat × Nat × Nat × Nat × Nat) :=
  match s with
  | y1 :: y2 :: y3 :: y4 :: c1 :: m1 :: m2 :: c2 :: d1 :: d2 :: rest =>
      if decide (c1 = '-') && decide (c2 = '-') && isDigitCh y1 && isDigitCh y2
          && isDigitCh y3 && isDigitCh y4 && isDigitCh m1 && isDigitCh m2
          && isDigitCh d1 && isDigitCh d2 then
        match hmsShape (rest.dropWhile isSepCh) with
        | some (h, n, sec) =>
            some (digitsToNat [y1, y2, y3, y4], digitsToNat [m1, m2],
              digitsToNat [d1, d2], h, n, sec)
        | none => none
      else none
  | _ => none

/-- Modelled from the amended claim, in full: after trimming, a string in the
date-only or date-time shape with calendar-valid fields denotes the corresponding
date-time and is accepted; a string in one of the shapes with invalid fields makes
the chrono constructors panic; every other string is rejected with an error. -/
def extendedFilterSpec (l : Str) : FtOutcome :=
  let s := trimChars l
  match ymdShape s with
  | some (y, m, d) =>
    match mkTimestamp (y : Int) m d 0 0 0 0 with
    | some ts => .ok ts
    | none => .fault
  | none =>
  match ymdHmsShape s with
  | some (y, m, d, h, mi, se) =>
    match mkTimestamp (y : Int) m d h mi se 0 with
    | some ts => .ok ts
    | none => .fault
  | none => .err

lemma expectCh_inv {c : Char} {l rest : Str} (h : expectCh c l = some rest) :
    l = c :: rest := by
  cases l with
  | nil => exact Option.noConfusion h
  | cons d cs =>
    simp only [expectCh] at h
    by_cases hd : d = c
    · rw [if_pos hd] at h
      injection h with h2
      rw [hd, h2]
    · rw [if_neg hd] at h
      exact Option.noConfusion h

lemma takeRunExact_inv (p : Char → Bool) :
    ∀ (n : Nat) (l r rest : Str), takeRunExact p n l = some (r, rest) →
      l = r ++ rest ∧ r.length = n ∧ ∀ c ∈ r, p c = true := by
  intro n
  induction n with
  | zero =>
    intro l r rest h
    simp only [takeRunExact, Option.some.injEq, Prod.mk.injEq] at h
    obtain ⟨hr, hrest⟩ := h
    subst hr
    subst hrest
    exact ⟨rfl, rfl, by simp⟩
  | succ n ih =>
    intro l r rest h
    cases l with
    | nil => exact Option.noConfusion h
    | cons c cs =>
      simp only [takeRunExact] at h
      by_cases hpc : p c
      · rw [if_pos hpc] at h
        cases heq : takeRunExact p n cs with
        | none => rw [heq] at h; exact Option.noConfusion h
        | some q =>
          obtain ⟨r2, rest2⟩ := q
          rw [heq] at h
          have h2 : (c :: r2, rest2) = (r, rest) := Option.some.inj h
          injection h2 with hr hrest
          subst hr
          subst hrest
          obtain ⟨hcs, hlen, hall⟩ := ih cs r2 rest2 heq
          subst hcs
          refine ⟨by simp, by simp [hlen], ?_⟩
          intro x hx
          rcases List.mem_cons.mp hx with h1 | h1
          · subst h1
            exact hpc
          · exact hall x h1
      · rw [if_neg hpc] at h
        exact Option.noConfusion h

lemma take2Digits_inv {l r rest : Str} (h : take2Digits l = some (r, rest)) :
    ∃ a b, r = [a, b] ∧ l = a :: b :: rest ∧ isDigitCh a = true
      ∧ isDigitCh b = true := by
  obtain ⟨hl, hlen, hall⟩ := takeRunExact_inv isDigitCh 2 l r rest h
  obtain ⟨a, b, rfl⟩ := List.length_eq_two.mp hlen
  exact ⟨a, b, rfl, by simp [hl], hall a (by simp), hall b (by simp)⟩

lemma list_length_four {r : Str} (h : r.length = 4) :
    ∃ a b c d, r = [a, b, c, d] := by
  rcases r with _ | ⟨a, _ | ⟨b, _ | ⟨c, _ | ⟨d, _ | ⟨e, r⟩⟩⟩⟩⟩ <;>
    first
      | exact ⟨a, b, c, d, rfl⟩
      | (simp only [List.length_cons, List.length_nil] at h; omega)

lemma ymdShape_sound {s : Str} {v : Nat × Nat × Nat} (h : ymdShape s = some v) :
    matchYmd s = some v := by
  unfold ymdShape at h
  split at h
  next y1 y2 y3 y4 c1 m1 m2 c2 d1 d2 =>
    split at h
    next hcond =>
      simp only [Bool.and_eq_true, decide_eq_true_eq] at hcond
      obtain ⟨⟨⟨⟨⟨⟨⟨⟨⟨hc1, hc2⟩, hy1⟩, hy2⟩, hy3⟩, hy4⟩, hm1⟩, hm2⟩, hd1⟩, hd2⟩ :=
        hcond
      subst hc1
      subst hc2
      injection h with hv
      subst hv
      simp [matchYmd, takeRunExact, take2Digits, expectCh, hy1, hy2, hy3, hy4,
        hm1, hm2, hd1, hd2]
    next => exact Option.noConfusion h
  next => exact Option.noConfusion h

lemma matchYmd_shape {s : Str} {v : Nat × Nat × Nat} (h : matchYmd s = some v) :
    ymdShape s = some v := by
  unfold matchYmd at h
  cases heq1 : takeRunExact isDigitCh 4 s with
  | none => rw [heq1] at h; exact Option.noConfusion h
  | some p1 =>
    obtain ⟨r4, l1⟩ := p1
    simp only [heq1] at h
    cases heq2 : expectCh '-' l1 with
    | none => rw [heq2] at h; exact Option.noConfusion h
    | some l2 =>
      simp only [heq2] at h
      cases heq3 : take2Digits l2 with
      | none => rw [heq3] at h; exact Option.noConfusion h
      | some p2 =>
        obtain ⟨rm, l3⟩ := p2
        simp only [heq3] at h
        cases heq4 : expectCh '-' l3 with
        | none => rw [heq4] at h; exact Option.noConfusion h
        | some l4 =>
          simp only [heq4] at h
          cases heq5 : take2Digits l4 with
          | none => rw [heq5] at h; exact Option.noConfusion h
          | some p3 =>
            obtain ⟨rd, l5⟩ := p3
            simp only [heq5] at h
            cases l5 with
            | cons c cs => exact Option.noConfusion h
            | nil =>
              injection h with hv
              subst hv
              obtain ⟨hs4, hlen4, hall4⟩ :=
                takeRunExact_inv isDigitCh 4 s r4 l1 heq1
              obtain ⟨y1, y2, y3, y4, rfl⟩ := list_length_four hlen4
              have hl1 := expectCh_inv heq2
              obtain ⟨m1, m2, rfl, hl2, hm1, hm2⟩ := take2Digits_inv heq3
              have hl3 := expectCh_inv heq4
              obtain ⟨d1, d2, rfl, hl4, hd1, hd2⟩ := take2Digits_inv heq5
              subst hl4
              subst hl3
              subst hl2
              subst hl1
              subst hs4
              have hy1 : isDigitCh y1 = true := hall4 y1 (by simp)
              have hy2 : isDigitCh y2 = true := hall4 y2 (by simp)
              have hy3 : isDigitCh y3 = true := hall4 y3 (by simp)
              have hy4 : isDigitCh y4 = true := hall4 y4 (by simp)
              simp [ymdShape, hy1, hy2, hy3, hy4, hm1, hm2, hd1, hd2]

lemma matchYmd_eq_shape (s : Str) : matchYmd s = ymdShape s := by
  cases h : matchYmd s with
  | some v => exact (matchYmd_shape h).symm
  | none =>
    cases h2 : ymdShape s with
    | none => rfl
    | some v =>
      rw [ymdShape_sound h2] at h
      exact Option.noConfusion h

lemma ymdHmsShape_sound {s : Str} {v : Nat × Nat × Nat × Nat × Nat × Nat}
    (h : ymdHmsShape s = some v) : matchYmdHms s = some v := by
  unfold ymdHmsShape at h
  split at h
  next y1 y2 y3 y4 c1 m1 m2 c2 d1 d2 rest =>
    split at h
    next hcond =>
      simp only [Bool.and_eq_true, decide_eq_true_eq] at hcond
      obtain ⟨⟨⟨⟨⟨⟨⟨⟨⟨hc1, hc2⟩, hy1⟩, hy2⟩, hy3⟩, hy4⟩, hm1⟩, hm2⟩, hd1⟩, hd2⟩ :=
        hcond
      subst hc1
      subst hc2
      cases hH : hmsShape (rest.dropWhile isSepCh) with
      | none => rw [hH] at h; exact Option.noConfusion h
      | some w =>
        obtain ⟨wh, wn, ws⟩ := w
        simp only [hH] at h
        injection h with hv
        subst hv
        unfold hmsShape at hH
        split at hH
        next h1 h2 e1 n1 n2 e2 s1 s2 hdw =>
          split at hH
          next hcond2 =>
            simp only [Bool.and_eq_true, decide_eq_true_eq] at hcond2
            obtain ⟨⟨⟨⟨⟨⟨⟨he1, he2⟩, hh1⟩, hh2⟩, hn1⟩, hn2⟩, hs1⟩, hs2⟩ := hcond2
            subst he1
            subst he2
            injection hH with h3
            simp only [Prod.mk.injEq] at h3
            obtain ⟨h4, h5, h6⟩ := h3
            subst h4
            subst h5
            subst h6
            simp [matchYmdHms, takeRunExact, take2Digits, expectCh, hdw,
              hy1, hy2, hy3, hy4, hm1, hm2, hd1, hd2, hh1, hh2, hn1, hn2, hs1, hs2]
          next => exact Option.noConfusion hH
        next => exact Option.noConfusion hH
    next => exact Option.noConfusion h
  next => exact Option.noConfusion h

lemma matchYmdHms_shape {s : Str} {v : Nat × Nat × Nat × Nat × Nat × Nat}
    (h : matchYmdHms s = some v) : ymdHmsShape s = some v := by
  unfold matchYmdHms at h
  cases heq1 : takeRunExact isDigitCh 4 s with
  | none => rw [heq1] at h; exact Option.noConfusion h
  | some p1 =>
    obtain ⟨r4, l1⟩ := p1
    simp only [heq1] at h
    cases heq2 : expectCh '-' l1 with
    | none => rw [heq2] at h; exact Option.noConfusion h
    | some l2 =>
      simp only [heq2] at h
      cases heq3 : take2Digits l2 with
      | none => rw [heq3] at h; exact Option.noConfusion h
      | some p2 =>
        obtain ⟨rm, l3⟩ := p2
        simp only [heq3] at h
        cases heq4 : expectCh '-' l3 with
        | none => rw [heq4] at h; exact Option.noConfusion h
        | some l4 =>
          simp only [heq4] at h
          cases heq5 : take2Digits l4 with
          | none => rw [heq5] at h; exact Option.noConfusion h
          | some p3 =>
            obtain ⟨rd, l5⟩ := p3
            simp only [heq5] at h
            cases heq6 : take2Digits (l5.dropWhile isSepCh) with
            | none => rw [heq6] at h; exact Option.noConfusion h
            | some p4 =>
              obtain ⟨rh, l6⟩ := p4
              simp only [heq6] at h
              cases heq7 : expectCh ':' l6 with
              | none => rw [heq7] at h; exact Option.noConfusion h
              | some l7 =>
                simp only [heq7] at h
                cases heq8 : take2Digits l7 with
                | none => rw [heq8] at h; exact Option.noConfusion h
                | some p5 =>
                  obtain ⟨rn, l8⟩ := p5
                  simp only [heq8] at h
                  cases heq9 : expectCh ':' l8 with
                  | none => rw [heq9] at h; exact Option.noConfusion h
                  | some l9 =>
                    simp only [heq9] at h
                    cases heq10 : take2Digits l9 with
                    | none => rw [heq10] at h; exact Option.noConfusion h
                    | some p6 =>
                      obtain ⟨rs, l10⟩ := p6
                      simp only [heq10] at h
                      cases l10 with
                      | cons c cs => exact Option.noConfusion h
                      | nil =>
                        injection h with hv
                        subst hv
                        obtain ⟨hs4, hlen4, hall4⟩ :=
                          takeRunExact_inv isDigitCh 4 s r4 l1 heq1
                        obtain ⟨y1, y2, y3, y4, rfl⟩ := list_length_four hlen4
                        have hl1 := expectCh_inv heq2
                        obtain ⟨m1, m2, rfl, hl2, hm1, hm2⟩ := take2Digits_inv heq3
                        have hl3 := expectCh_inv heq4
                        obtain ⟨d1, d2, rfl, hl4, hd1, hd2⟩ := take2Digits_inv heq5
                        obtain ⟨h1, h2, rfl, hdw, hh1, hh2⟩ := take2Digits_inv heq6
                        have hl6 := expectCh_inv heq7
                        obtain ⟨n1, n2, rfl, hl7, hn1, hn2⟩ := take2Digits_inv heq8
                        have hl8 := expectCh_inv heq9
                        obtain ⟨s1, s2, rfl, hl9, hs1, hs2⟩ := take2Digits_inv heq10
                        subst hl9
                        subst hl8
                        subst hl7
                        subst hl6
                        subst hl4
                        subst hl3
                        subst hl2
                        subst hl1
                        subst hs4
                        have hy1 : isDigitCh y1 = true := hall4 y1 (by simp)
                        have hy2 : isDigitCh y2 = true := hall4 y2 (by simp)
                        have hy3 : isDigitCh y3 = true := hall4 y3 (by simp)
                        have hy4 : isDigitCh y4 = true := hall4 y4 (by simp)
                        simp [ymdHmsShape, hmsShape, hdw, hy1, hy2, hy3, hy4,
                          hm1, hm2, hd1, hd2, hh1, hh2, hn1, hn2, hs1, hs2]

lemma matchYmdHms_eq_shape (s : Str) : matchYmdHms s = ymdHmsShape s := by
  cases h : matchYmdHms s with
  | some v => exact (matchYmdHms_shape h).symm
  | none =>
    cases h2 : ymdHmsShape s with
    | none => rfl
    | some v =>
      rw [ymdHmsShape_sound h2] at h
      exact Option.noConfusion h

/-- C5, amended: `parse_filter_timestamp` accepts, after trimming, exactly the
strings matching one of the two digit shapes — `YYYY-MM-DD`, or `YYYY-MM-DD`
followed by any run (possibly empty or repeated) of space/`t`/`T` and `HH:MM:SS` —
returning the corresponding date-time when the fields are calendar-valid, panicking
in the chrono constructors when a shape matches with invalid fields, and rejecting
every other string with an error at configuration time (first conjunct, a complete
characterization); in particular every string in one of the two spec formats is
accepted with its date-time (second conjunct). -/
theorem c5_theorem :
    (∀ l : Str, parse_filter_timestamp l = extendedFilterSpec l)
  ∧ (∀ (l : Str) (t : Timestamp), specFilterFormat l = some t →
        parse_filter_timestamp l = .ok t) := by
  constructor
  · intro l
    simp only [parse_filter_timestamp, extendedFilterSpec, matchYmd_eq_shape,
      matchYmdHms_eq_shape]
  · intro l t hspec
    unfold specFilterFormat at hspec
    split at hspec
    next y1 y2 y3 y4 m1 m2 d1 d2 =>
      split at hspec
      next hcond =>
        simp only [Bool.and_eq_true] at hcond
        obtain ⟨⟨⟨⟨⟨⟨⟨hy1, hy2⟩, hy3⟩, hy4⟩, hm1⟩, hm2⟩, hd1⟩, hd2⟩ := hcond
        have hlist : ([y1, y2, y3, y4, '-', m1, m2, '-', d1, d2] : Str)
            = y1 :: ([y2, y3, y4, '-', m1, m2, '-', d1] ++ [d2]) := by simp
        have htrim := trimChars_of_ends (isWsCh_of_digit hy1) (isWsCh_of_digit hd2)
          [y2, y3, y4, '-', m1, m2, '-', d1]
        simp only [parse_filter_timestamp, hlist, htrim]
        simp [matchYmd, takeRunExact, take2Digits, expectCh, hy1, hy2, hy3, hy4,
          hm1, hm2, hd1, hd2, hspec]
      next => exact Option.noConfusion hspec
    next y1 y2 y3 y4 m1 m2 d1 d2 sep ho1 ho2 n1 n2 s1 s2 =>
      split at hspec
      next hcond =>
        simp only [Bool.and_eq_true] at hcond
        obtain ⟨⟨⟨⟨⟨⟨⟨⟨⟨⟨⟨⟨⟨⟨hsepOr, hy1⟩, hy2⟩, hy3⟩, hy4⟩, hm1⟩, hm2⟩, hd1⟩, hd2⟩,
          hho1⟩, hho2⟩, hn1⟩, hn2⟩, hs1⟩, hs2⟩ := hcond
        have hsepT : isSepCh sep = true := by
          simp only [Bool.or_eq_true, decide_eq_true_eq] at hsepOr
          rcases hsepOr with h | h <;> simp [isSepCh, h]
        have hlist : ([y1, y2, y3, y4, '-', m1, m2, '-', d1, d2, sep, ho1, ho2, ':',
            n1, n2, ':', s1, s2] : Str)
            = y1 :: ([y2, y3, y4, '-', m1, m2, '-', d1, d2, sep, ho1, ho2, ':',
              n1, n2, ':', s1] ++ [s2]) := by simp
        have htrim := trimChars_of_ends (isWsCh_of_digit hy1) (isWsCh_of_digit hs2)
          [y2, y3, y4, '-', m1, m2, '-', d1, d2, sep, ho1, ho2, ':', n1, n2, ':', s1]
        simp only [parse_filter_timestamp, hlist, htrim]
        simp [matchYmd, matchYmdHms, takeRunExact, take2Digits, expectCh,
          List.dropWhile_cons, hy1, hy2, hy3, hy4, hm1, hm2, hd1, hd2, hho1, hho2,
          hn1, hn2, hs1, hs2, hsepT, isSepCh_of_digit hho1, hspec]
      next => exact Option.noConfusion hspec
    next => exact Option.noConfusion hspec

/-- Witness for the amended C5: the characterization instantiated on an accepted
lowercase-t string, an invalid-field (panicking) string and a rejected string, and
the refinement half instantiated on a capital-T spec-format string. -/
theorem c5_witness :
    parse_filter_timestamp "2021-04-08t10:00:00".data = .ok ⟨2021, 4, 8, 10, 0, 0, 0⟩
  ∧ parse_filter_timestamp "2021-13-01".data = .fault
  ∧ parse_filter_timestamp "garbage".data = .err
  ∧ parse_filter_timestamp "2021-04-08T10:00:00".data
      = .ok ⟨2021, 4, 8, 10, 0, 0, 0⟩ :=
  ⟨(c5_theorem.1 "2021-04-08t10:00:00".data).trans (by decide),
   (c5_theorem.1 "2021-13-01".data).trans (by decide),
   (c5_theorem.1 "garbage".data).trans (by decide),
   c5_theorem.2 "2021-04-08T10:00:00".data ⟨2021, 4, 8, 10, 0, 0, 0⟩ (by decide)⟩

-- ------------------------------------------------------------------------------------
-- Claim C6 (conjunctive filtering)
-- ------------------------------------------------------------------------------------

/-- C6 is refuted in general: a file whose preamble creation date (2022-07-01) exceeds
the upper bound (2022-06-01) is abandoned by the early `break`, so its second line is
never emitted even though it matches the grammar and satisfies the whole filter
conjunction (its resolved timestamp 2022-01-01 lies below the upper bound). -/
theorem c6_counterexample :
    load ⟨none, some ⟨2022, 6, 1, 0, 0, 0, 0⟩, 1999, none⟩
      ["Log file created at: 2022/07/01 00:00:00".data,
       "I0101 00:00:00.000000 1 a.b:1] x".data]
      = .done ⟨0, 0, 0, ⟨some ⟨2022, 7, 1, 0, 0, 0, 0⟩, none⟩, []⟩
  ∧ specEmitRecord ⟨none, some ⟨2022, 6, 1, 0, 0, 0, 0⟩, 1999, none⟩ 2022
      "I0101 00:00:00.000000 1 a.b:1] x".data
      = some ⟨'I', ⟨2022, 1, 1, 0, 0, 0, 0⟩, 1, "a.b".data, 1, none, "x".data⟩ := by
  exact ⟨by decide, by decide⟩

/-- C6, amended: for every line the scan actually processes the emission decision is
exactly the spec's conjunction.  In particular, for any file none of whose lines
matches the created-at preamble pattern (so the scan is never cut short and the year
is the default throughout), the multiset of emitted records is exactly the lines
satisfying the conjunction, in file order. -/
theorem c6_theorem (cfg : ArgInfo) (lines : List Str) (r : LoadResult)
    (hpre : ∀ l ∈ lines, matchCreatedAt l = none)
    (hload : load cfg lines = .done r) :
    r.out = lines.filterMap (specEmitRecord cfg cfg.default_year) := by
  have h := loadFrom_out_created_none cfg lines ⟨1, ⟨none, none⟩, 0, 0, 0, []⟩ r rfl
    hpre hload
  simpa using h

/-- Witness for the amended C6 at a concrete input with a substring filter. -/
theorem c6_witness :
    load ⟨none, none, 2021, some "up".data⟩
      ["I0408 10:34:43.355123 12345 server.cc:42] starting up".data,
       "I0408 10:34:44.000000 12345 server.cc:42] other".data]
      = .done ⟨1, 0, 1, ⟨none, none⟩,
          [⟨'I', ⟨2021, 4, 8, 10, 34, 43, 355123⟩, 12345, "server.cc".data, 42, none,
            "starting up".data⟩]⟩
  ∧ (⟨1, 0, 1, ⟨none, none⟩,
        [⟨'I', ⟨2021, 4, 8, 10, 34, 43, 355123⟩, 12345, "server.cc".data, 42, none,
          "starting up".data⟩]⟩ : LoadResult).out
      = ["I0408 10:34:43.355123 12345 server.cc:42] starting up".data,
         "I0408 10:34:44.000000 12345 server.cc:42] other".data].filterMap
          (specEmitRecord ⟨none, none, 2021, some "up".data⟩
            (⟨none, none, 2021, some "up".data⟩ : ArgInfo).default_year) :=
  ⟨by decide,
   c6_theorem ⟨none, none, 2021, some "up".data⟩
     ["I0408 10:34:43.355123 12345 server.cc:42] starting up".data,
      "I0408 10:34:44.000000 12345 server.cc:42] other".data]
     ⟨1, 0, 1, ⟨none, none⟩,
       [⟨'I', ⟨2021, 4, 8, 10, 34, 43, 355123⟩, 12345, "server.cc".data, 42, none,
         "starting up".data⟩]⟩
     (by decide) (by decide)⟩

-- ------------------------------------------------------------------------------------
-- Claim C7 (created-at preamble example)
-- ------------------------------------------------------------------------------------

/-- C7: the preamble line `Log file created at: 2021/04/08 14:44:23`, here the second
of the file (within the 10-line window), sets createdAt to 2021-04-08 14:44:23, and
the subsequent body line with month/day 0408 resolves to year 2021 even though the
configured default year is 1999. -/
theorem c7_theorem :
    load ⟨none, none, 1999, none⟩
      ["Running on machine: yb-host-1".data,
       "Log file created at: 2021/04/08 14:44:23".data,
       "I0408 10:34:43.355123 12345 server.cc:42] starting up".data]
      = .done ⟨1, 2, 0, ⟨some ⟨2021, 4, 8, 14, 44, 23, 0⟩, some "yb-host-1".data⟩,
          [⟨'I', ⟨2021, 4, 8, 10, 34, 43, 355123⟩, 12345, "server.cc".data, 42, none,
            "starting up".data⟩]⟩ := by
  decide

-- ------------------------------------------------------------------------------------
-- Claim C8 (end-to-end parse examples)
-- ------------------------------------------------------------------------------------

/-- C8: the example line parses to severity I, timestamp 2021-04-08T10:34:43.355123,
thread 12345, file server.cc, line 42, message `starting up`, no tablet id; the
variant whose message carries `T <32 hex digits>` additionally yields that tablet id. -/
theorem c8_theorem :
    YBLogLine.parse "I0408 10:34:43.355123 12345 server.cc:42] starting up".data 2021
      = .ok ⟨'I', ⟨2021, 4, 8, 10, 34, 43, 355123⟩, 12345, "server.cc".data, 42, none,
          "starting up".data⟩
  ∧ YBLogLine.parse
      "I0408 10:34:43.355123 12345 server.cc:42] T 0123456789abcdef0123456789abcdef replicating".data
      2021
      = .ok ⟨'I', ⟨2021, 4, 8, 10, 34, 43, 355123⟩, 12345, "server.cc".data, 42,
          some "0123456789abcdef0123456789abcdef".data,
          "T 0123456789abcdef0123456789abcdef replicating".data⟩ := by
  exact ⟨by decide, by decide⟩

-- ------------------------------------------------------------------------------------
-- Claim C9 (finalization: stable sort by timestamp)
-- ------------------------------------------------------------------------------------

/-- C9: finalization returns a permutation of the appended records (no loss, no
duplication), sorted non-decreasingly by the timestamp order the code sorts by, and
stable: for every timestamp key, the subsequence of records with that key is exactly
the one of the input, i.e. ties keep their append order. -/
theorem c9_theorem (lines : List YBLogLine) :
    (finalizeOutput lines).Perm lines
  ∧ List.Sorted recLE (finalizeOutput lines)
  ∧ ∀ t : Int, (finalizeOutput lines).filter (fun x => decide (x.timestamp.key = t))
      = lines.filter (fun x => decide (x.timestamp.key = t)) :=
  ⟨List.perm_insertionSort recLE lines, List.sorted_insertionSort recLE lines,
   fun t => filter_insertionSort t lines⟩

-- ------------------------------------------------------------------------------------
-- Claim C10 (preamble extraction independent of the substring filter)
-- ------------------------------------------------------------------------------------

/-- C10: the preamble a completed scan leaves behind is computed by
`extractPreamble`, a function of the upper filter bound and the lines alone — it does
not depend on the substring filter (or any other filter field), so a preamble line
that fails the substring filter still updates the file's preamble. -/
theorem c10_theorem (cfg : ArgInfo) (lines : List Str) (r : LoadResult)
    (hload : load cfg lines = .done r) :
    extractPreamble cfg.highest_timestamp lines = some r.preamble :=
  loadFrom_extract cfg lines ⟨1, ⟨none, none⟩, 0, 0, 0, []⟩ r hload

/-- Witness for C10: with a substring filter that matches nothing, the created-at
line is skipped for emission (0 parsed, 1 skipped) yet still fills the preamble. -/
theorem c10_witness :
    extractPreamble (⟨none, none, 2021, some "zzz".data⟩ : ArgInfo).highest_timestamp
      ["Log file created at: 2021/04/08 14:44:23".data]
      = some (⟨0, 0, 1, ⟨some ⟨2021, 4, 8, 14, 44, 23, 0⟩, none⟩, []⟩ :
          LoadResult).preamble :=
  c10_theorem ⟨none, none, 2021, some "zzz".data⟩
    ["Log file created at: 2021/04/08 14:44:23".data]
    ⟨0, 0, 1, ⟨some ⟨2021, 4, 8, 14, 44, 23, 0⟩, none⟩, []⟩ (by decide)

end Yblp
